import Mathlib

/-!
Verification of the gluestick scraper (repository jcuga/gluestick).

The repository carries three Go variants of the same program:
* `src/gluestick.go` — the HTTP server (namespace `Server` below);
* `src/server/gluestick.go` — an earlier, partially-implemented server
  (namespace `ServerOld` below, only its completion signalling is needed);
* a CLI variant appended to `src/README.md` (namespace `Cli` below).

Go `map[string]interface{}` values are modelled as association lists of
`String × Value`; Go map iteration order is unspecified, so the list order
stands in for one arbitrary iteration order (every claim checked here is
insensitive to that order).  The colly/goquery collaborator (spec section 6)
is modelled by the `HTMLElement`/`Doc` structures whose fields record, per
CSS selector, the matching descendants in document order.
-/

set_option autoImplicit false

/-- Result values, modelling the Go `interface{}` trees the scraper builds:
strings, `[]interface{}` slices and `map[string]interface{}` objects. -/
inductive Value where
  | str : String → Value
  | list : List Value → Value
  | obj : List (String × Value) → Value

/-- A Go `map[string]interface{}`, modelled as an association list. -/
abbrev Assoc := List (String × Value)

/-- Lookup in an association list (`outMap[key]` on a Go map). -/
def lookupA : Assoc → String → Option Value
  | [], _ => none
  | (k', v) :: rest, k => if k' = k then some v else lookupA rest k

/-- Store into an association list (`outMap[key] = v` on a Go map): replace an
existing binding in place, otherwise add a new one. -/
def setA : Assoc → String → Value → Assoc
  | [], k, v => [(k, v)]
  | (k', v') :: rest, k, v =>
      if k' = k then (k, v) :: rest else (k', v') :: setA rest k v

/-- Whether a value is a `[]interface{}` slice (the Go type assertion
`prev.([]interface{})` in `accumValue`). -/
def Value.isList : Value → Bool
  | Value.list _ => true
  | _ => false

/-- `accumValue` from `src/gluestick.go` lines 131-143 (identical in the CLI
variant): first write stores the value bare; a second write replaces the
binding with a two-element slice; later writes append to the slice. -/
def accumValue (outMap : Assoc) (key : String) (value : Value) : Assoc :=
  match lookupA outMap key with
  | none => setA outMap key value
  | some prev =>
      match prev with
      | Value.list multi => setA outMap key (Value.list (multi ++ [value]))
      | _ => setA outMap key (Value.list [prev, value])

/-- The effect of one `accumValue` call on the binding of its own key. -/
def push (o : Option Value) (v : Value) : Option Value :=
  match o with
  | none => some v
  | some (Value.list vs) => some (Value.list (vs ++ [v]))
  | some prev => some (Value.list [prev, v])

/-- Iterated `push`. -/
def pushSeq (o : Option Value) (vs : List Value) : Option Value :=
  vs.foldl push o

/-- A sequence of `accumValue` calls, each call a `(key, value)` pair. -/
def accumSeq (init : Assoc) (calls : List (String × Value)) : Assoc :=
  calls.foldl (fun m c => accumValue m c.1 c.2) init

/-- The values a call sequence accumulates under key `k`, in call order. -/
def valuesFor (k : String) (calls : List (String × Value)) : List Value :=
  calls.filterMap (fun c => if c.1 = k then some c.2 else none)

/-- Whether the first element of a list of values is itself a `List` value. -/
def headIsList : List Value → Bool
  | [] => false
  | v :: _ => v.isList

/-! ## SelectorParser -/

/-- Split a character list at its last `'|'`: `none` when no bar occurs,
otherwise `some (before, after)` with `after` bar-free.  This models the
byte-level `strings.LastIndex(input, "|")` split of the Go code: `'|'` is a
lone ASCII byte, so on well-formed UTF-8 the byte split and the character
split produce the same two substrings. -/
def splitLastBar : List Char → Option (List Char × List Char)
  | [] => none
  | c :: rest =>
      match splitLastBar rest with
      | some (s, a) => some (c :: s, a)
      | none => if c = '|' then some ([], rest) else none

namespace Server

/-- `getSelectorAndAttr` from `src/gluestick.go` lines 145-154: split on the
last `'|'`; with no bar the whole input is the selector and the attribute is
empty; no trimming. -/
def getSelectorAndAttr (input : String) : String × String :=
  match splitLastBar input.data with
  | none => (input, "")
  | some (s, a) => (⟨s⟩, ⟨a⟩)

end Server

/-- Go `strings.TrimSpace`, modelled over the whitespace characters Lean's
`Char.isWhitespace` recognises (space, tab, CR, LF — the only ones arising
in this development). -/
def trimSpace (s : String) : String :=
  ⟨((s.data.dropWhile Char.isWhitespace).reverse.dropWhile Char.isWhitespace).reverse⟩

namespace Cli

/-- `getSelectorAndAttr` from the CLI variant (source appended in
`src/README.md`, lines 318-325): as the server variant, but both parts are
passed through `strings.TrimSpace`. -/
def getSelectorAndAttr (input : String) : String × String :=
  match splitLastBar input.data with
  | none => (trimSpace input, "")
  | some (s, a) => (trimSpace ⟨s⟩, trimSpace ⟨a⟩)

end Cli

/-! ## The DOM collaborator (colly/goquery), spec section 6 -/

/-- What the extractor reads off one descendant matched by a selector: its
text content and its attributes. -/
structure DescInfo where
  text : String
  attrs : List (String × String)

/-- A matched document element as the colly collaborator presents it: its own
text content, its own attributes, and — per CSS selector — the descendants
matching that selector, in document order. -/
structure HTMLElement where
  text : String
  attrs : List (String × String)
  matchDesc : String → List DescInfo

/-- String-keyed attribute lookup. -/
def alookup : List (String × String) → String → Option String
  | [], _ => none
  | (k', v) :: rest, k => if k' = k then some v else alookup rest k

/-- colly `HTMLElement.Attr`: the attribute's value, or the empty string when
the element does not carry the attribute. -/
def elemAttr (e : HTMLElement) (k : String) : String :=
  match alookup e.attrs k with
  | some v => v
  | none => ""

/-- colly `HTMLElement.ChildText`: the concatenated text content of ALL
descendants matching the selector, trimmed as one string. -/
def childText (e : HTMLElement) (sel : String) : String :=
  trimSpace (String.join ((e.matchDesc sel).map DescInfo.text))

/-- colly `HTMLElement.ChildAttrs`: for each matching descendant, in document
order, its trimmed attribute value — descendants lacking the attribute are
skipped. -/
def childAttrs (e : HTMLElement) (sel attrName : String) : List String :=
  (e.matchDesc sel).filterMap (fun d => (alookup d.attrs attrName).map trimSpace)

/-- The fetched document: per CSS selector, the matching elements in document
order (colly fires a selector's `OnHTML` callback once per such element). -/
structure Doc where
  find : String → List HTMLElement

/-! ## Field specifications -/

/-- A decoded `fields` entry (Go `interface{}` after `encoding/json`): a
string leaf selector-expression, a nested name→field object, or any other
JSON shape (number, bool, null, array) — the `other` case, which the Go
type-switch in `parseFields` treats as a schema error. -/
inductive JsonVal where
  | str : String → JsonVal
  | obj : List (String × JsonVal) → JsonVal
  | other : JsonVal

/-- `ScrapeItem` from `src/gluestick.go`. -/
structure ScrapeItem where
  selector : String
  fields : List (String × JsonVal)

/-- `ScrapeRequest` from `src/gluestick.go`. -/
structure ScrapeRequest where
  url : String
  items : List (String × ScrapeItem)

/-! ## FieldExtractor: `parseFields` (server variant, `src/gluestick.go`
lines 97-125) -/

namespace Server

mutual

/-- One loop iteration of `parseFields`: dispatch on the dynamic type of the
field definition.  A string leaf resolves the selector expression as the
source does: no selector and no attribute → own text; attribute only →
`e.Attr` (one contribution, empty string when absent); selector only →
`e.ChildText` (ONE contribution holding the concatenated text); both →
one contribution per `e.ChildAttrs` entry.  A nested object recurses; any
other shape is logged and skipped. -/
def parseOne (e : HTMLElement) (parsed : Assoc) (fieldName : String) :
    JsonVal → Assoc
  | JsonVal.str fieldSelector =>
      match Server.getSelectorAndAttr fieldSelector with
      | (sel, attr) =>
        if sel = "" then
          if attr = "" then accumValue parsed fieldName (Value.str e.text)
          else accumValue parsed fieldName (Value.str (elemAttr e attr))
        else
          if attr = "" then
            accumValue parsed fieldName (Value.str (childText e sel))
          else
            (childAttrs e sel attr).foldl
              (fun p v => accumValue p fieldName (Value.str v)) parsed
  | JsonVal.obj nestedFields =>
      accumValue parsed fieldName (Value.obj (parseList e [] nestedFields))
  | JsonVal.other => parsed

/-- The `parseFields` loop over the (map-iteration ordered) field list,
threading the accumulated object. -/
def parseList (e : HTMLElement) (parsed : Assoc) :
    List (String × JsonVal) → Assoc
  | [] => parsed
  | (fieldName, field) :: rest =>
      parseList e (parseOne e parsed fieldName field) rest

end

/-- `parseFields` from `src/gluestick.go` lines 97-125: build a fresh object
for one matched element. -/
def parseFields (fields : List (String × JsonVal)) (e : HTMLElement) : Assoc :=
  parseList e [] fields

end Server

/-! ## FieldExtractor: `parseFields` (CLI variant, source appended in
`src/README.md`, lines 268-298) -/

namespace Cli

mutual

/-- As `Server.parseOne` except that the selector expression is parsed with
trimming, and the selector-only case uses `e.ForEach(sel, …)`: one
contribution per matching descendant, holding that descendant's own text. -/
def parseOne (e : HTMLElement) (parsed : Assoc) (fieldName : String) :
    JsonVal → Assoc
  | JsonVal.str fieldSelector =>
      match Cli.getSelectorAndAttr fieldSelector with
      | (sel, attr) =>
        if sel = "" then
          if attr = "" then accumValue parsed fieldName (Value.str e.text)
          else accumValue parsed fieldName (Value.str (elemAttr e attr))
        else
          if attr = "" then
            (e.matchDesc sel).foldl
              (fun p child => accumValue p fieldName (Value.str child.text)) parsed
          else
            (childAttrs e sel attr).foldl
              (fun p v => accumValue p fieldName (Value.str v)) parsed
  | JsonVal.obj nestedFields =>
      accumValue parsed fieldName (Value.obj (parseList e [] nestedFields))
  | JsonVal.other => parsed

/-- The CLI `parseFields` loop. -/
def parseList (e : HTMLElement) (parsed : Assoc) :
    List (String × JsonVal) → Assoc
  | [] => parsed
  | (fieldName, field) :: rest =>
      parseList e (parseOne e parsed fieldName field) rest

end

/-- `parseFields` from the CLI variant. -/
def parseFields (fields : List (String × JsonVal)) (e : HTMLElement) : Assoc :=
  parseList e [] fields

end Cli

/-! ## SpecValidator: `validate` (`src/gluestick.go` lines 156-178, identical
in the other variants) -/

/-- Model of Go `net/url.Parse` success on the inputs relevant here: it
accepts ANY string free of ASCII control characters — in particular the
EMPTY string, which parses as a valid (relative) URL — and rejects strings
containing control characters ("net/url: invalid control character in URL"). -/
def urlParseOk (s : String) : Bool :=
  s.data.all (fun c => decide (0x20 ≤ c.toNat ∧ c.toNat ≠ 0x7f))

/-- The per-item validation loop: first error wins. -/
def firstItemError : List (String × ScrapeItem) → Option String
  | [] => none
  | (itemK, itemV) :: rest =>
      if itemV.selector = "" then
        some ("request.items[" ++ itemK ++ "].selector was empty")
      else if itemV.fields.isEmpty then
        some ("request.items[" ++ itemK ++ "].fields was empty")
      else firstItemError rest

/-- `validate` from `src/gluestick.go` lines 156-178: reject a url that
`url.Parse` refuses, an empty items mapping, an item with empty selector, or
an item with an empty fields mapping.  (The Go `nil`-request guard cannot
arise in the model.) -/
def validate (req : ScrapeRequest) : Option String :=
  if urlParseOk req.url then
    if req.items.isEmpty then some "request.items was empty"
    else firstItemError req.items
  else some "url parse error"

/-! ## Accumulating a block of values under a single key -/

/-- The accumulator's result for a block of values written under one key into
an empty container: nothing, the bare value, or the list of all of them. -/
def listResult (k : String) : List Value → Assoc
  | [] => []
  | [v] => [(k, v)]
  | v₁ :: v₂ :: rest => [(k, Value.list (v₁ :: v₂ :: rest))]

/-! ## Concrete elements used in the leaf-field theorems -/

/-- An element with two descendants matching the selector `"p"`. -/
def twoParagraphElem : HTMLElement :=
  ⟨"ROOT", [], fun sel => if sel = "p" then [⟨"A", []⟩, ⟨"B", []⟩] else []⟩

/-- An element carrying no attributes at all. -/
def bareElem : HTMLElement := ⟨"TXT", [], fun _ => []⟩

/-! ## ScrapeOrchestrator: the item loop of `src/gluestick.go` lines 66-72

The Go loop

```
for itemName, item := range scrapeReq.Items {
    c.OnHTML(item.Selector, func(e *colly.HTMLElement) {
        parsed := parseFields(item.Fields, e)
        accumValue(results, itemName, parsed)
    })
}
```

passes `item.Selector` as an argument, so each callback is registered under
its own item's selector; but the closure body reads the shared loop
variables `itemName`/`item` only when the callback fires — during
`c.Visit`, after the loop has finished.  Under the Go semantics this
codebase targets (pre-1.22 per-loop variables; the CLI variant in the
repository even carries the explicit capture workaround with the comment
"NOTE: have to capture itemName, item else will only get last in loop"),
every callback therefore extracts with the LAST iteration's fields and
accumulates under the LAST iteration's name. -/

namespace Server

/-- The registration loop plus colly's walk: per registered callback (one
per item, in iteration order), each element matching that item's selector,
in document order — but, by the capture bug, always extracting with the last
item's fields and accumulating under the last item's name. -/
def runScrape (doc : Doc) (items : List (String × ScrapeItem)) : Assoc :=
  match items.getLast? with
  | none => []
  | some lastPair =>
      items.foldl
        (fun results p =>
          (doc.find p.2.selector).foldl
            (fun r e =>
              accumValue r lastPair.1
                (Value.obj (Server.parseFields lastPair.2.fields e)))
            results)
        []

end Server

/-! ## C2 / C3: concrete runs exhibiting the capture bug -/

/-- One element matched by `"div.alpha"`, with text `"T1"` and one `h3`
descendant. -/
def alphaElem : HTMLElement :=
  ⟨"T1", [], fun sel => if sel = "h3" then [⟨"H1", []⟩] else []⟩

/-- A document in which `"div.alpha"` matches exactly one element and every
other selector matches nothing. -/
def alphaDoc : Doc := ⟨fun sel => if sel = "div.alpha" then [alphaElem] else []⟩

/-- A two-item request body: item `"alpha"` (selector `div.alpha`) and item
`"beta"` (selector `div.beta`). -/
def alphaBetaItems : List (String × ScrapeItem) :=
  [("alpha", ⟨"div.alpha", [("t", JsonVal.str "h3")]⟩),
   ("beta", ⟨"div.beta", [("u", JsonVal.str "")]⟩)]

/-- An element matched by `"selA"`, with text `"XTEXT"`. -/
def firstElem : HTMLElement := ⟨"XTEXT", [], fun _ => []⟩

/-- A document in which `"selA"` matches exactly one element. -/
def firstSecondDoc : Doc := ⟨fun sel => if sel = "selA" then [firstElem] else []⟩

/-- Two items with distinct fields: `"first"` extracts field `"f"`,
`"second"` extracts field `"g"`. -/
def firstSecondItems : List (String × ScrapeItem) :=
  [("first", ⟨"selA", [("f", JsonVal.str "")]⟩),
   ("second", ⟨"selB", [("g", JsonVal.str "")]⟩)]

/-! ## ScrapeOrchestrator completion signalling (C8) -/

/-- A terminal signal from the collaborator: document walk complete
(`OnScraped`) or fetch/parse failure (`OnError`). -/
inductive Signal where
  | scraped
  | errored
deriving DecidableEq

/-- The observable fate of the caller blocked in `wg.Wait()`. -/
inductive WaitOutcome where
  | resumedOnce
  | hung
  | panicked
deriving DecidableEq

/-- Go `sync.WaitGroup` semantics for a group with `wg.Add(1)` before the
wait: no `Done` and the wait blocks forever; exactly one `Done` releases the
waiter exactly once; any further `Done` drives the counter negative, which
panics ("sync: negative WaitGroup counter"). -/
def waitGroupOutcome (doneCount : Nat) : WaitOutcome :=
  if doneCount = 0 then WaitOutcome.hung
  else if doneCount = 1 then WaitOutcome.resumedOnce
  else WaitOutcome.panicked

namespace Server

/-- `src/gluestick.go` lines 74-86: BOTH the `OnScraped` and the `OnError`
callbacks call `wg.Done()`. -/
def signalsDone (_ : Signal) : Bool := true

/-- Fate of the caller given which terminal signals fire during `Visit`. -/
def scrapeCompletion (fired : List Signal) : WaitOutcome :=
  waitGroupOutcome (fired.filter signalsDone).length

end Server

namespace ServerOld

/-- `src/server/gluestick.go` lines 88-96: only `OnScraped` calls
`wg.Done()`; NO `OnError` handler is registered, so a failure signal never
reaches the WaitGroup. -/
def signalsDone : Signal → Bool
  | Signal.scraped => true
  | Signal.errored => false

/-- Fate of the caller given which terminal signals fire during `Visit`. -/
def scrapeCompletion (fired : List Signal) : WaitOutcome :=
  waitGroupOutcome (fired.filter signalsDone).length

end ServerOld

/-! ## The HTTP response path (C10): `encoding/json.MarshalIndent` model and
the `/scrape` handler -/

/-- One hexadecimal digit, lower case. -/
def hexDigit (n : Nat) : Char :=
  if n < 10 then Char.ofNat (48 + n) else Char.ofNat (87 + n)

/-- Go `encoding/json` string escaping (default HTML-escaping encoder):
quote, backslash, the three HTML-significant characters as `\u00XX`, named
escapes for LF/CR/TAB, `\u00XX` for the other control characters. -/
def escChar (c : Char) : String :=
  if c = '"' then "\\\""
  else if c = '\\' then "\\\\"
  else if c = '\n' then "\\n"
  else if c = '\r' then "\\r"
  else if c = '\t' then "\\t"
  else if c.toNat < 0x20 then
    "\\u00" ++ String.mk [hexDigit (c.toNat / 16), hexDigit (c.toNat % 16)]
  else if c = '<' then "\\u003c"
  else if c = '>' then "\\u003e"
  else if c = '&' then "\\u0026"
  else String.singleton c

/-- A JSON string literal. -/
def quoteStr (s : String) : String :=
  "\"" ++ String.join (s.data.map escChar) ++ "\""

/-- `n` spaces. -/
def spaces (n : Nat) : String := String.mk (List.replicate n ' ')

/-- Join already-indented lines with `",\n"`. -/
def joinCommaNl (lines : List String) : String := String.intercalate ",\n" lines

/-- Insertion step of the key sort (Go marshals map keys in ascending byte
order; for the ASCII keys arising here `String` order agrees). -/
def insertPair (p : String × String) :
    List (String × String) → List (String × String)
  | [] => [p]
  | q :: rest => if p.1 < q.1 then p :: q :: rest else q :: insertPair p rest

/-- Sort rendered object entries by key. -/
def sortStrPairs (l : List (String × String)) : List (String × String) :=
  l.foldr insertPair []

mutual

/-- Render a `Value` as Go `json.MarshalIndent(v, "", "    ")` renders the
corresponding `interface{}` tree, at nesting depth `d`. -/
def jsonVal : Value → Nat → String
  | Value.str s, _ => quoteStr s
  | Value.list vs, d =>
      match jsonItemLines vs (d + 1) with
      | [] => "[]"
      | lines =>
          "[\n" ++ joinCommaNl (lines.map (fun ln => spaces (4 * (d + 1)) ++ ln)) ++
            "\n" ++ spaces (4 * d) ++ "]"
  | Value.obj kvs, d =>
      match sortStrPairs (jsonKeyedPairs kvs (d + 1)) with
      | [] => "\x7b\x7d"
      | ps =>
          "\x7b\n" ++ joinCommaNl (ps.map (fun p => spaces (4 * (d + 1)) ++ p.2)) ++
            "\n" ++ spaces (4 * d) ++ "\x7d"

/-- Render each array element. -/
def jsonItemLines : List Value → Nat → List String
  | [], _ => []
  | v :: rest, d => jsonVal v d :: jsonItemLines rest d

/-- Render each object entry as `(key, "key": value)`, to be sorted by key
afterwards. -/
def jsonKeyedPairs : List (String × Value) → Nat → List (String × String)
  | [], _ => []
  | (k, v) :: rest, d =>
      (k, quoteStr k ++ ": " ++ jsonVal v d) :: jsonKeyedPairs rest d

end

/-- Go `json.MarshalIndent(results, "", "    ")` on the top-level result
mapping. -/
def marshalIndent (results : Assoc) : String := jsonVal (Value.obj results) 0

/-- An HTTP response as the handler determines it: status code and body
(`http.ResponseWriter` defaults the status to 200 on the first write). -/
structure HttpResponse where
  status : Nat
  body : String

namespace Server

/-- The `/scrape` handler of `src/gluestick.go` lines 41-95: method guard
(405), JSON decode (400 with the decode error), `validate` (400 with the
validation error); then the collector visits the url, the handler waits for
the one completion signal, and — whether the walk finished or the fetch
FAILED (`OnError` merely logs and signals) — writes the 4-space-indented
JSON of the accumulated results, with the implicit 200 status.
`fetchFailed` records which terminal signal fired; the response construction
never consults it, exactly as in the source. -/
def scrapeHandler (method : String) (decoded : Except String ScrapeRequest)
    (doc : Doc) (_fetchFailed : Bool) : HttpResponse :=
  if method ≠ "POST" then ⟨405, "Only POST allowed.\n"⟩
  else
    match decoded with
    | Except.error msg => ⟨400, msg ++ "\n"⟩
    | Except.ok req =>
        match validate req with
        | some msg => ⟨400, msg ++ "\n"⟩
        | none => ⟨200, marshalIndent (Server.runScrape doc req.items)⟩

end Server

/-- A document in which no selector matches anything (the situation after a
failed fetch: no walk, nothing accumulated). -/
def emptyDoc : Doc := ⟨fun _ => []⟩

/-- A minimal valid request. -/
def simpleReq : ScrapeRequest :=
  ⟨"http://x", [("a", ⟨"div", [("t", JsonVal.str "h3")]⟩)]⟩


/-! ## Theorems -/

theorem lookupA_setA_self (m : Assoc) (k : String) (v : Value) :
    lookupA (setA m k v) k = some v := by
  induction m with
  | nil => simp [setA, lookupA]
  | cons p rest ih =>
      by_cases h : p.1 = k
      · simp [setA, lookupA, h]
      · simp [setA, lookupA, h, ih]

theorem lookupA_setA_ne (m : Assoc) (k' k : String) (v : Value) (h : k' ≠ k) :
    lookupA (setA m k' v) k = lookupA m k := by
  induction m with
  | nil => simp [setA, lookupA, h]
  | cons p rest ih =>
      by_cases hp : p.1 = k'
      · simp [setA, lookupA, hp, h]
      · simp [setA, lookupA, hp, ih]

theorem lookupA_accumValue_self (m : Assoc) (k : String) (v : Value) :
    lookupA (accumValue m k v) k = push (lookupA m k) v := by
  unfold accumValue push
  cases hm : lookupA m k with
  | none => simp [lookupA_setA_self]
  | some prev => cases prev <;> simp [lookupA_setA_self]

theorem lookupA_accumValue_ne (m : Assoc) (k' k : String) (v : Value)
    (h : k' ≠ k) : lookupA (accumValue m k' v) k = lookupA m k := by
  unfold accumValue
  cases hm : lookupA m k' with
  | none => simp [lookupA_setA_ne m k' k v h]
  | some prev => cases prev <;> simp [lookupA_setA_ne _ k' k _ h]

theorem lookupA_accumSeq (init : Assoc) (k : String)
    (calls : List (String × Value)) :
    lookupA (accumSeq init calls) k = pushSeq (lookupA init k) (valuesFor k calls) := by
  induction calls generalizing init with
  | nil => rfl
  | cons c rest ih =>
      obtain ⟨k', v⟩ := c
      show lookupA (accumSeq (accumValue init k' v) rest) k = _
      by_cases h : k' = k
      · subst h
        rw [ih, lookupA_accumValue_self]
        simp [valuesFor, pushSeq]
      · rw [ih, lookupA_accumValue_ne _ _ _ _ h]
        simp [valuesFor, pushSeq, h]

theorem pushSeq_from_list (acc : List Value) (vs : List Value) :
    pushSeq (some (Value.list acc)) vs = some (Value.list (acc ++ vs)) := by
  induction vs generalizing acc with
  | nil => simp [pushSeq]
  | cons v rest ih =>
      simp [pushSeq, push] at *
      rw [ih]
      simp

theorem push_of_not_list (v w : Value) (h : v.isList = false) :
    push (some v) w = some (Value.list [v, w]) := by
  cases v
  · rfl
  · simp [Value.isList] at h
  · rfl

/-- C1. `accumValue` arity: starting from a container with no binding for
`k`, run any call sequence (calls under other keys may be interleaved).  If
the calls under `k` accumulate values `v₁, …, vN` (the first not itself a
`List`, as is the case everywhere the program calls `accumValue`), then the
resulting binding of `k` is: absent for N = 0, the bare value `v₁` for
N = 1, and `List [v₁, …, vN]` in call order for N ≥ 2.  The statement is
about any `Assoc` container, hence applies uniformly to the field-level
objects of `parseFields` and to the top-level result mapping. -/
theorem accumValue_arity (init : Assoc) (k : String)
    (calls : List (String × Value))
    (hk : lookupA init k = none)
    (hhead : headIsList (valuesFor k calls) = false) :
    (valuesFor k calls = [] → lookupA (accumSeq init calls) k = none) ∧
    (∀ v, valuesFor k calls = [v] → lookupA (accumSeq init calls) k = some v) ∧
    (2 ≤ (valuesFor k calls).length →
      lookupA (accumSeq init calls) k = some (Value.list (valuesFor k calls))) := by
  refine ⟨?_, ?_, ?_⟩
  · intro h
    rw [lookupA_accumSeq, hk, h]
    rfl
  · intro v h
    rw [lookupA_accumSeq, hk, h]
    rfl
  · intro hlen
    rw [lookupA_accumSeq, hk]
    match hvs : valuesFor k calls with
    | [] => simp [hvs] at hlen
    | [v] => simp [hvs] at hlen
    | v₁ :: v₂ :: rest =>
        rw [hvs] at hhead
        simp [headIsList] at hhead
        show pushSeq (push (push none v₁) v₂) rest = _
        rw [show push none v₁ = some v₁ from rfl, push_of_not_list v₁ v₂ hhead,
          pushSeq_from_list]
        rfl

/-- Witness for C1: three calls, two of them under `"k"`, yield the
two-element list `["a", "b"]` under `"k"`. -/
theorem accumValue_arity_witness :
    lookupA (accumSeq []
      [("k", Value.str "a"), ("j", Value.str "x"), ("k", Value.str "b")]) "k" =
      some (Value.list [Value.str "a", Value.str "b"]) :=
  (accumValue_arity [] "k"
      [("k", Value.str "a"), ("j", Value.str "x"), ("k", Value.str "b")]
      rfl (by decide)).2.2 (by decide)

theorem splitLastBar_eq_none (l : List Char) (h : '|' ∉ l) :
    splitLastBar l = none := by
  induction l with
  | nil => rfl
  | cons c rest ih =>
      rw [List.mem_cons] at h
      push_neg at h
      have hc : ¬ (c = '|') := fun hc => h.1 hc.symm
      unfold splitLastBar
      rw [ih h.2]
      simp [hc]

theorem splitLastBar_append (s a : List Char) (h : '|' ∉ a) :
    splitLastBar (s ++ '|' :: a) = some (s, a) := by
  induction s with
  | nil =>
      show splitLastBar ('|' :: a) = _
      unfold splitLastBar
      rw [splitLastBar_eq_none a h]
      simp
  | cons c rest ih =>
      show splitLastBar (c :: (rest ++ '|' :: a)) = _
      unfold splitLastBar
      rw [ih]

theorem string_data_append (s t : String) : (s ++ t).data = s.data ++ t.data := by
  cases s
  cases t
  rfl

/-- C6.  The selector-expression parser of `src/gluestick.go` splits on the
LAST `'|'`: with no bar the whole input is the selector and the attribute is
empty; with a bar the text before it is the selector and the text after it
the attribute; and the four example inputs of the spec parse as stated. -/
theorem getSelectorAndAttr_spec :
    (∀ input : String, '|' ∉ input.data →
      Server.getSelectorAndAttr input = (input, "")) ∧
    (∀ s a : String, '|' ∉ a.data →
      Server.getSelectorAndAttr (s ++ "|" ++ a) = (s, a)) ∧
    Server.getSelectorAndAttr "a img|src" = ("a img", "src") ∧
    Server.getSelectorAndAttr "h3" = ("h3", "") ∧
    Server.getSelectorAndAttr "|href" = ("", "href") ∧
    Server.getSelectorAndAttr "" = ("", "") := by
  refine ⟨?_, ?_, by decide, by decide, by decide, by decide⟩
  · intro input h
    unfold Server.getSelectorAndAttr
    rw [splitLastBar_eq_none input.data h]
  · intro s a h
    unfold Server.getSelectorAndAttr
    have hd : (s ++ "|" ++ a).data = s.data ++ '|' :: a.data := by
      rw [string_data_append, string_data_append, List.append_assoc]
      rfl
    rw [hd, splitLastBar_append s.data a.data h]

/-- Witness for C6 at a concrete split input. -/
theorem getSelectorAndAttr_spec_witness :
    Server.getSelectorAndAttr ("ab" ++ "|" ++ "cd") = ("ab", "cd") :=
  getSelectorAndAttr_spec.2.1 "ab" "cd" (by decide)

/-- C7 counterexample: a request with an EMPTY url but otherwise well-formed
is ACCEPTED by `validate` — Go `url.Parse("")` succeeds, so "url is empty"
is not among the rejection causes, contrary to the claim. -/
theorem validate_empty_url_accepted_cex :
    validate ⟨"", [("a", ⟨"div", [("t", JsonVal.str "h3")]⟩)]⟩ = none := rfl

theorem firstItemError_isSome_iff (l : List (String × ScrapeItem)) :
    (firstItemError l).isSome = true ↔
      ∃ p ∈ l, p.2.selector = "" ∨ p.2.fields = [] := by
  induction l with
  | nil => simp [firstItemError]
  | cons p rest ih =>
      obtain ⟨k, it⟩ := p
      by_cases h1 : it.selector = ""
      · simp [firstItemError, h1]
      · by_cases h2 : it.fields.isEmpty
        · rw [List.isEmpty_iff] at h2
          simp [firstItemError, h1, h2, List.isEmpty_iff]
        · rw [List.isEmpty_iff] at h2
          simp [firstItemError, h1, h2, List.isEmpty_iff, ih]

/-- C7 (amended).  `validate` returns an error exactly when the url fails to
parse (an empty url parses successfully and is accepted), or the items
mapping is empty, or some item has an empty selector or an empty fields
mapping; hence a request with a parsable url and one item carrying a
non-empty selector and non-empty fields is accepted. -/
theorem validate_errors_iff (req : ScrapeRequest) :
    (validate req).isSome = true ↔
      (urlParseOk req.url = false ∨ req.items = [] ∨
        ∃ p ∈ req.items, p.2.selector = "" ∨ p.2.fields = []) := by
  unfold validate
  cases hu : urlParseOk req.url
  · simp
  · by_cases hi : req.items.isEmpty
    · rw [List.isEmpty_iff] at hi
      simp [hi, List.isEmpty_iff]
    · rw [List.isEmpty_iff] at hi
      simp [hi, List.isEmpty_iff, firstItemError_isSome_iff]

/-- C9.  A field definition that is neither a string nor a nested mapping
contributes nothing, and extraction of every other field of the same
invocation is unchanged — in both variants.  (The Go code logs the schema
error and continues; logging is not modelled.) -/
theorem parseFields_schema_error_skip (e : HTMLElement) (parsed : Assoc)
    (pre post : List (String × JsonVal)) (fieldName : String) :
    Server.parseList e parsed (pre ++ (fieldName, JsonVal.other) :: post) =
      Server.parseList e parsed (pre ++ post) ∧
    Cli.parseList e parsed (pre ++ (fieldName, JsonVal.other) :: post) =
      Cli.parseList e parsed (pre ++ post) := by
  constructor
  · induction pre generalizing parsed with
    | nil => simp [Server.parseList, Server.parseOne]
    | cons q rest ih =>
        obtain ⟨qn, qv⟩ := q
        simp only [List.cons_append, Server.parseList]
        exact ih _
  · induction pre generalizing parsed with
    | nil => simp [Cli.parseList, Cli.parseOne]
    | cons q rest ih =>
        obtain ⟨qn, qv⟩ := q
        simp only [List.cons_append, Cli.parseList]
        exact ih _

theorem accumValue_list_append (k : String) (acc : List Value) (v : Value) :
    accumValue [(k, Value.list acc)] k v = [(k, Value.list (acc ++ [v]))] := by
  simp [accumValue, lookupA, setA]

theorem accumAll_from_list (k : String) (acc : List Value) (vs : List Value) :
    vs.foldl (fun p v => accumValue p k v) [(k, Value.list acc)] =
      [(k, Value.list (acc ++ vs))] := by
  induction vs generalizing acc with
  | nil => simp
  | cons v rest ih =>
      rw [List.foldl_cons, accumValue_list_append, ih]
      simp

theorem accumAll_single_key (k : String) (vs : List Value)
    (h : headIsList vs = false) :
    vs.foldl (fun p v => accumValue p k v) [] = listResult k vs := by
  match vs with
  | [] => rfl
  | [v] => simp [listResult, accumValue, lookupA, setA]
  | v₁ :: v₂ :: rest =>
      simp [headIsList] at h
      rw [List.foldl_cons, List.foldl_cons]
      have h1 : accumValue [] k v₁ = [(k, v₁)] := by
        simp [accumValue, lookupA, setA]
      have h2 : accumValue [(k, v₁)] k v₂ = [(k, Value.list [v₁, v₂])] := by
        cases v₁ with
        | str s => simp [accumValue, lookupA, setA]
        | list l => simp [Value.isList] at h
        | obj o => simp [accumValue, lookupA, setA]
      rw [h1, h2, accumAll_from_list]
      simp [listResult]

theorem headIsList_map_str {α : Type} (f : α → String) (l : List α) :
    headIsList (l.map (fun x => Value.str (f x))) = false := by
  cases l with
  | nil => rfl
  | cons x rest => rfl

/-- C4 counterexample: in `src/gluestick.go` an element with TWO descendants
matching `"p"` yields ONE contribution under the field — the single
concatenated string `"AB"` produced by colly `ChildText` — not two separate
contributions forming the two-element list the claim requires. -/
theorem childText_single_contribution_cex :
    lookupA (Server.parseFields [("f", JsonVal.str "p")] twoParagraphElem) "f" =
      some (Value.str "AB") ∧
    some (Value.str "AB") ≠
      some (Value.list [Value.str "A", Value.str "B"]) := by
  constructor
  · simp [Server.parseFields, Server.parseList, Server.parseOne,
      Server.getSelectorAndAttr, splitLastBar, childText, twoParagraphElem,
      trimSpace, accumValue, lookupA, setA]
  · simp

/-- C4 (amended).  For a leaf field whose parsed selector is non-empty and
attribute empty: the server variant (`src/gluestick.go`, via `ChildText`)
accumulates exactly ONE contribution, the trimmed concatenated text of ALL
matching descendants; the per-descendant accumulation the claim describes is
the CLI variant's behaviour (`ForEach`): one contribution per matching
descendant, in document order, giving M contributions for M descendants. -/
theorem leaf_selector_text_contributions (e : HTMLElement)
    (fieldName expr selS selC : String)
    (hs : Server.getSelectorAndAttr expr = (selS, ""))
    (hsne : selS ≠ "")
    (hc : Cli.getSelectorAndAttr expr = (selC, ""))
    (hcne : selC ≠ "") :
    Server.parseFields [(fieldName, JsonVal.str expr)] e =
      [(fieldName, Value.str (childText e selS))] ∧
    Cli.parseFields [(fieldName, JsonVal.str expr)] e =
      listResult fieldName ((e.matchDesc selC).map (fun d => Value.str d.text)) := by
  constructor
  · simp [Server.parseFields, Server.parseList, Server.parseOne, hs, hsne,
      accumValue, lookupA, setA]
  · rw [← accumAll_single_key fieldName
      ((e.matchDesc selC).map (fun d => Value.str d.text))
      (headIsList_map_str DescInfo.text (e.matchDesc selC)), List.foldl_map]
    simp [Cli.parseFields, Cli.parseList, Cli.parseOne, hc, hcne]

/-- Witness for C4 (amended) at the two-descendant element. -/
theorem leaf_selector_text_contributions_witness :
    Server.parseFields [("f", JsonVal.str "p")] twoParagraphElem =
      [("f", Value.str (childText twoParagraphElem "p"))] ∧
    Cli.parseFields [("f", JsonVal.str "p")] twoParagraphElem =
      listResult "f"
        ((twoParagraphElem.matchDesc "p").map (fun d => Value.str d.text)) :=
  leaf_selector_text_contributions twoParagraphElem "f" "p" "p" "p"
    rfl (by decide) rfl (by decide)

/-- C5 counterexample: for the field `"link" ↦ "|href"` on an element with NO
attributes, the code still accumulates one contribution — the empty string
returned by colly `Attr` — so the key IS present in the result, contrary to
the claim that no contribution is accumulated and the field may be absent. -/
theorem attr_absent_empty_string_cex :
    lookupA (Server.parseFields [("link", JsonVal.str "|href")] bareElem) "link" =
      some (Value.str "") ∧
    lookupA (Server.parseFields [("link", JsonVal.str "|href")] bareElem) "link" ≠
      none := by
  have h : lookupA (Server.parseFields [("link", JsonVal.str "|href")] bareElem)
      "link" = some (Value.str "") := by
    simp [Server.parseFields, Server.parseList, Server.parseOne,
      Server.getSelectorAndAttr, splitLastBar, elemAttr, alookup, bareElem,
      accumValue, lookupA, setA]
  refine ⟨h, ?_⟩
  rw [h]
  simp

/-- C5 (amended).  For a leaf field whose parsed selector is empty and
attribute non-empty, exactly one contribution is accumulated per occurrence:
the node's value for that attribute, which is the EMPTY STRING when the node
lacks the attribute (colly `Attr`); the field is therefore never absent for
that occurrence, and an absent attribute is not an error.  Both variants
agree. -/
theorem leaf_attr_contribution (e : HTMLElement)
    (fieldName expr attrS attrC : String)
    (hs : Server.getSelectorAndAttr expr = ("", attrS)) (h1 : attrS ≠ "")
    (hc : Cli.getSelectorAndAttr expr = ("", attrC)) (h2 : attrC ≠ "") :
    Server.parseFields [(fieldName, JsonVal.str expr)] e =
      [(fieldName, Value.str (elemAttr e attrS))] ∧
    Cli.parseFields [(fieldName, JsonVal.str expr)] e =
      [(fieldName, Value.str (elemAttr e attrC))] := by
  constructor
  · simp [Server.parseFields, Server.parseList, Server.parseOne, hs, h1,
      accumValue, lookupA, setA]
  · simp [Cli.parseFields, Cli.parseList, Cli.parseOne, hc, h2,
      accumValue, lookupA, setA]

/-- Witness for C5 (amended) at the attribute-less element. -/
theorem leaf_attr_contribution_witness :
    Server.parseFields [("link", JsonVal.str "|href")] bareElem =
      [("link", Value.str (elemAttr bareElem "href"))] ∧
    Cli.parseFields [("link", JsonVal.str "|href")] bareElem =
      [("link", Value.str (elemAttr bareElem "href"))] :=
  leaf_attr_contribution bareElem "link" "|href" "href" "href"
    rfl (by decide) rfl (by decide)

/-- C2: evaluation at the failing input.  Item `"alpha"`'s selector matched
exactly ONE element, yet the result mapping has NO key `"alpha"` — the
object was accumulated under `"beta"` (built with beta's fields) because of
the loop-variable capture bug; the claim requires a bare object under
`"alpha"`. -/
theorem scrape_capture_bug_item_key :
    Server.runScrape alphaDoc alphaBetaItems =
      [("beta", Value.obj [("u", Value.str "T1")])] ∧
    lookupA (Server.runScrape alphaDoc alphaBetaItems) "alpha" = none := by
  have h : Server.runScrape alphaDoc alphaBetaItems =
      [("beta", Value.obj [("u", Value.str "T1")])] := by
    simp [Server.runScrape, alphaDoc, alphaBetaItems, alphaElem,
      Server.parseFields, Server.parseList, Server.parseOne,
      Server.getSelectorAndAttr, splitLastBar, accumValue, lookupA, setA]
  refine ⟨h, ?_⟩
  rw [h]
  simp [lookupA]

/-- C3: evaluation at the failing input.  The node matched by item
`"first"`'s selector is extracted with item `"second"`'s fields (the result
object carries key `"g"`, not `"f"`) and accumulated under `"second"` —
another item's name and fields, which the claim forbids. -/
theorem scrape_capture_bug_fields :
    Server.runScrape firstSecondDoc firstSecondItems =
      [("second", Value.obj [("g", Value.str "XTEXT")])] ∧
    lookupA (Server.runScrape firstSecondDoc firstSecondItems) "first" = none := by
  have h : Server.runScrape firstSecondDoc firstSecondItems =
      [("second", Value.obj [("g", Value.str "XTEXT")])] := by
    simp [Server.runScrape, firstSecondDoc, firstSecondItems, firstElem,
      Server.parseFields, Server.parseList, Server.parseOne,
      Server.getSelectorAndAttr, splitLastBar, accumValue, lookupA, setA]
  refine ⟨h, ?_⟩
  rw [h]
  simp [lookupA]

/-- C8 counterexample: (a) in `src/server/gluestick.go` the error path never
signals, so when the one terminal signal is a fetch failure the caller
HANGS instead of resuming; (b) in `src/gluestick.go` a second signal after
the first drives the WaitGroup counter negative and PANICS — it is not
ignored.  Both refute the claim's "neither a crash nor a hang". -/
theorem completion_signal_cex :
    ServerOld.scrapeCompletion [Signal.errored] = WaitOutcome.hung ∧
    Server.scrapeCompletion [Signal.scraped, Signal.errored] =
      WaitOutcome.panicked := by
  exact ⟨rfl, rfl⟩

/-- C8 (amended).  In `src/gluestick.go` both terminal paths signal the one
WaitGroup, so in every execution in which exactly one terminal signal fires
— which is what the collaborator guarantees — the caller resumes exactly
once; were both paths to signal, the second `wg.Done` would panic rather
than be ignored.  In `src/server/gluestick.go` only the success path
signals, so a fetch failure leaves the caller blocked forever. -/
theorem completion_signal_behavior (fired : List Signal) :
    ((fired.filter Server.signalsDone).length = 1 →
      Server.scrapeCompletion fired = WaitOutcome.resumedOnce) ∧
    (2 ≤ (fired.filter Server.signalsDone).length →
      Server.scrapeCompletion fired = WaitOutcome.panicked) ∧
    ServerOld.scrapeCompletion [Signal.errored] = WaitOutcome.hung := by
  refine ⟨?_, ?_, rfl⟩
  · intro h
    simp [Server.scrapeCompletion, waitGroupOutcome, h]
  · intro h
    have h0 : (fired.filter Server.signalsDone).length ≠ 0 := by omega
    have h1 : (fired.filter Server.signalsDone).length ≠ 1 := by omega
    simp [Server.scrapeCompletion, waitGroupOutcome, h0, h1]

/-- Witness for C8 (amended): a single success signal resumes the caller
exactly once. -/
theorem completion_signal_behavior_witness :
    Server.scrapeCompletion [Signal.scraped] = WaitOutcome.resumedOnce :=
  (completion_signal_behavior [Signal.scraped]).1 (by decide)

/-- C10.  For a POST request that decodes and validates, the handler's
response is status 200 with the 4-space-indented JSON serialization of the
accumulated result mapping EVEN when the terminal signal was a fetch/parse
failure (`fetchFailed = true`): the error is only logged, never surfaced as
a non-200 status or an error body. -/
theorem scrape_handler_error_still_200 (req : ScrapeRequest) (doc : Doc)
    (hv : validate req = none) :
    Server.scrapeHandler "POST" (Except.ok req) doc true =
      ⟨200, marshalIndent (Server.runScrape doc req.items)⟩ := by
  simp [Server.scrapeHandler, hv]

/-- Witness for C10: the valid one-item request against the empty document
with a failed fetch still yields the 200 response with the serialized (here
empty) result mapping. -/
theorem scrape_handler_error_still_200_witness :
    Server.scrapeHandler "POST" (Except.ok simpleReq) emptyDoc true =
      ⟨200, marshalIndent (Server.runScrape emptyDoc simpleReq.items)⟩ :=
  scrape_handler_error_still_200 simpleReq emptyDoc rfl
